import Mathlib

/-!
Shallow embedding of the `db-mixin` module (files `src/db.mixin.js` and
`src/unnamed/part_000`): a factory that produces a Moleculer service-schema
fragment for entity services.  The embedding covers the id-obfuscation
codec (`encodeID` / `decodeID`), the foreign-key permission guard
`validateHas`, the storage-adapter selection of the factory, the declared
action table, and the `created` / `started` lifecycle hooks.

The `hashids` library is an external dependency of the module (the spec
treats the obfuscation algorithm as an external primitive), so it is
modelled as an abstract codec value; its documented behaviour (reversible
on hex ids, empty result on malformed input, never throwing) enters the
theorems as explicit, named hypotheses that concrete codecs discharge.
-/

namespace DbMixin

/-- Truthiness of an optional JS string value (environment variables and
string-valued properties): `undefined` and the empty string are falsy,
every other string is truthy. -/
def truthyStr : Option String → Option String
  | some s => if s = "" then none else some s
  | none => none

/-! ## ID codec (`encodeID` / `decodeID`) -/

/-- A character of a lowercase hexadecimal id string. -/
def isLowerHexChar (c : Char) : Bool :=
  ("0123456789abcdef".data).contains c

/-- A valid internal id in string form: a nonempty lowercase hex string
(the form `ObjectID.toString` produces and `hashids.encodeHex`
consumes). -/
def IsValidHexId (s : String) : Prop :=
  s ≠ "" ∧ s.data.all isLowerHexChar = true

instance (s : String) : Decidable (IsValidHexId s) :=
  inferInstanceAs (Decidable (_ ∧ _))

/-- The interface of the external `hashids` instance the factory builds
from the process-wide salt: the `encodeHex` / `decodeHex` pair over
strings. -/
structure HexCodec where
  encodeHex : String → String
  decodeHex : String → String

/-- Documented contract of `hashids` under a fixed salt: `decodeHex`
inverts `encodeHex` on every valid hex id (deterministic and
reversible). -/
def RoundTripOn (c : HexCodec) : Prop :=
  ∀ s, IsValidHexId s → c.decodeHex (c.encodeHex s) = s

/-- Documented contract of `hashids.decodeHex` on a malformed external id:
an id that does not decode yields the empty string (the call never
throws). -/
def DecodesToNothing (c : HexCodec) (m : String) : Prop :=
  c.decodeHex m = ""

instance (c : HexCodec) (m : String) : Decidable (DecodesToNothing c m) :=
  inferInstanceAs (Decidable (_ = _))

/-- An internal id as `encodeID` receives it: either the adapter native
`ObjectID` (carried by the 24-character lowercase hex string its
`toString` yields) or a plain string id. -/
inductive InternalId where
  | objectId (hex : String)
  | str (s : String)

/-- The string form of an internal id: `toString` of a native `ObjectID`,
identity on strings. -/
def InternalId.stringForm : InternalId → String
  | .objectId h => h
  | .str s => s

/-- A valid internal id: a native `ObjectID` (whose string form is a
24-character lowercase hex string) or a valid hex string id. -/
def ValidInternalId : InternalId → Prop
  | .objectId h => h.length = 24 ∧ h.data.all isLowerHexChar = true
  | .str s => IsValidHexId s

instance (x : InternalId) : Decidable (ValidInternalId x) := by
  cases x with
  | objectId h => exact inferInstanceAs (Decidable (_ ∧ _))
  | str s => exact inferInstanceAs (Decidable (IsValidHexId _))

/-- `encodeID(id)` (src/db.mixin.js lines 124-127): the statement
`if (ObjectID.isValid(id)) id = id.toString()` replaces a native
`ObjectID` by its hex string form; on a string input `toString` is the
identity, so in both cases the value handed to `hashids.encodeHex` is the
string form of the id. -/
def encodeID (hashids : HexCodec) (id : InternalId) : String :=
  hashids.encodeHex id.stringForm

/-- `decodeID(id)` (src/db.mixin.js lines 129-131): delegates to
`hashids.decodeHex`. -/
def decodeID (hashids : HexCodec) (id : String) : String :=
  hashids.decodeHex id

/-- Existence lookup over a store of entities keyed by internal id
(resolution-by-id in the external database service). -/
def lookupById {α : Type} (store : List (String × α)) (id : String) : Option α :=
  (store.find? (fun p => p.1 == id)).map (fun p => p.2)

/-! ## The permission guard `validateHas` -/

/-- A JS object with string-valued properties (the `query` and `params`
objects of `validateHas`), as an association list. -/
abbrev JsObj := List (String × String)

/-- Property read `o[k]`. -/
def jsGet (o : JsObj) (k : String) : Option String :=
  (o.find? (fun p => p.1 == k)).map (fun p => p.2)

/-- Property assignment `o[k] = v`: overwrites the property when present,
appends it otherwise. -/
def jsSet (o : JsObj) (k v : String) : JsObj :=
  match o with
  | [] => [(k, v)]
  | p :: rest => if p.1 == k then (k, v) :: rest else p :: jsSet rest k v

/-- The truthy read `params[key]` the guard performs: an absent or
empty-string property is falsy. -/
def jsGetTruthy (o : JsObj) (k : String) : Option String :=
  truthyStr (jsGet o k)

/-- A parameter-schema entry `ctx.action.params[key]`: the guard reads
only its `optional` flag (an absent `optional` property is falsy). -/
structure ParamSpec where
  optional : Bool
  deriving DecidableEq

/-- The slice of a Moleculer execution context `validateHas` reads:
`ctx.call` (delegated resolution of an id by the owning service, yielding
an opaque entity or nothing) and `ctx.action.params` (the parameter
schema of the running action). -/
structure Ctx where
  call : String → String → Option Unit
  actionParams : String → Option ParamSpec

/-- One entry of a validation-error payload (`type` and `field`). -/
structure FieldError where
  type : String
  field : String
  deriving DecidableEq

/-- The `data` payload of a thrown `MoleculerClientError`: the denied
value under the `domain` property, or a list of field errors. -/
inductive ErrData where
  | domain (value : String)
  | fields (entries : List FieldError)
  deriving DecidableEq

/-- A `MoleculerClientError` as constructed by the guard: message, HTTP
code, error type and data payload. -/
structure MolError where
  message : String
  code : Nat
  errType : String
  data : ErrData
  deriving DecidableEq

/-- The value a `validateHas` call produces when it does not throw: the
query object, or `undefined` when control falls off the end of the
function body. -/
inductive VHReturn where
  | query (q : JsObj)
  | undef
  deriving DecidableEq

/-- Returned value or thrown error of a `validateHas` call. -/
inductive VHResult where
  | ok (v : VHReturn)
  | thrown (e : MolError)
  deriving DecidableEq

/-- Outcome of a `validateHas` call: its result together with the list of
`ctx.call` invocations (caller service, id) the run performed. -/
structure VHOutcome where
  result : VHResult
  calls : List (String × String)
  deriving DecidableEq

/-- `validateHas(caller, key, query, ctx, params)` (src/db.mixin.js lines
98-123).  With no context the query passes through.  Otherwise, a truthy
`params[key]` triggers a delegated lookup `ctx.call(caller, id)`:
on a truthy result the id is written into `query[key]` and the query
returned, on a falsy result a 403 `ERR_NO_PERMISSION` client error is
thrown carrying the denied value.  With `params[key]` falsy, a schema
entry marking the key non-optional raises a 422 `VALIDATION_ERROR`
naming the field; otherwise control falls off the end of the function
(returning `undefined`). -/
def validateHas (caller key : String) (query : JsObj) (ctx : Option Ctx)
    (params : JsObj) : VHOutcome :=
  match ctx with
  | none => ⟨.ok (.query query), []⟩
  | some c =>
    match jsGetTruthy params key with
    | some v =>
      let res := c.call caller v
      if res.isSome then
        ⟨.ok (.query (jsSet query key v)), [(caller, v)]⟩
      else
        ⟨.thrown ⟨"You have no right for the " ++ key ++ " \x27" ++ v ++ "\x27",
            403, "ERR_NO_PERMISSION", .domain v⟩, [(caller, v)]⟩
    | none =>
      match c.actionParams key with
      | some spec =>
        if !spec.optional then
          ⟨.thrown ⟨key ++ " is required", 422, "VALIDATION_ERROR",
              .fields [⟨"required", key⟩]⟩, []⟩
        else ⟨.ok .undef, []⟩
      | none => ⟨.ok .undef, []⟩

/-! ## The factory: adapter selection -/

/-- The environment variables the factory reads (absent is `none`; JS
truthiness makes an empty-string value equivalent to absent). -/
structure FactoryEnv where
  nodeEnvTest : Bool
  testInt : Bool
  testE2E : Bool
  onlyGenerate : Bool
  nedbFolder : Option String
  mongoUri : Option String

/-- The documented configuration surface of the factory: collection name,
permission-tag root and an optional NeDB directory.  This surface carries
no `adapter` key, so the `_.defaultsDeep` adapter default computed by the
factory always applies in full. -/
structure FactoryOpts where
  collection : String
  permissions : String
  nedb : Option String

/-- The adapter configuration merged into the options. -/
inductive AdapterConfig where
  | nedbPlain
  | nedbFile (inMemoryOnly : Bool) (corruptAlertThreshold : Rat) (filename : String)
  | mongoDB (uri : String) (collection : String)
  deriving DecidableEq

/-- Result of the adapter-selection stage: the chosen configuration and
the directories passed to `mkdirp` (created if absent, idempotent). -/
structure AdapterSelection where
  adapter : AdapterConfig
  mkdirCalls : List String
  deriving DecidableEq

/-- `process.env.NEDB_FOLDER || opts.nedb`: the configured local
directory, environment variable first, with JS truthiness. -/
def nedbDir (env : FactoryEnv) (opts : FactoryOpts) : Option String :=
  match truthyStr env.nedbFolder with
  | some f => some f
  | none => truthyStr opts.nedb

/-- Adapter selection of the factory (src/db.mixin.js lines 20-51).  In
the unit-testing / generation override the adapter is the plain string
`"NeDB"`.  Otherwise a configured local directory selects the NeDB file
store (`inMemoryOnly: false`, `corruptAlertThreshold: 0.5`, data file
`<collection>.db` under the resolved directory, which is mkdir-ed);
absent that, MongoDB is selected with `MONGO_URI` defaulting to
`mongodb://localhost/data` and the collection as target namespace.
`resolve` stands for node `path.resolve` (working-directory dependent, so
a parameter); `path.join` is concatenation with the separator. -/
def selectAdapter (resolve : String → String) (env : FactoryEnv)
    (opts : FactoryOpts) : AdapterSelection :=
  if (env.nodeEnvTest && !env.testInt) || env.onlyGenerate then
    ⟨.nedbPlain, []⟩
  else
    match nedbDir env opts with
    | some raw =>
      let dir := resolve raw
      ⟨.nedbFile false (1/2) (dir ++ "/" ++ opts.collection ++ ".db"), [dir]⟩
    | none =>
      ⟨.mongoDB ((truthyStr env.mongoUri).getD "mongodb://localhost/data")
          opts.collection, []⟩

/-! ## Lifecycle hooks -/

/-- The `created` lifecycle hook (src/db.mixin.js lines 134-138): yields
the message passed to `broker.fatal` when `HASHID_SALT` is not configured
(unset or empty), nothing otherwise. -/
def createdHook (hashidSalt : Option String) : Option String :=
  if truthyStr hashidSalt = none then
    some "Environment variable \x27HASHID_SALT\x27 must be configured!"
  else none

/-- Trace of the `started` lifecycle hook: whether index creation was
attempted, whether the collection was cleared (test modes), the entity
count the seed check observed, and whether `seedDB` was invoked. -/
structure StartedTrace where
  indexesAttempted : Bool
  cleared : Bool
  observedCount : Nat
  seeded : Bool
  deriving DecidableEq

/-- The `started` hook (src/db.mixin.js lines 140-163) as a function of
the environment, the number of entities the collection holds at start,
and whether the service defines a `seedDB` function.  Outside unit
testing, index creation is attempted (failures logged, non-fatal).  In
the E2E / integration test modes `clearEntities` empties the collection
first, so the count observed afterwards is 0.  `seedDB` is invoked when
the observed count is 0 and the function exists. -/
def startedHook (env : FactoryEnv) (entitiesAtStart : Nat)
    (hasSeedDB : Bool) : StartedTrace :=
  let cleared := env.testE2E || env.testInt
  let count := if cleared then 0 else entitiesAtStart
  { indexesAttempted := !env.nodeEnvTest
    cleared := cleared
    observedCount := count
    seeded := count == 0 && hasSeedDB }

/-! ## The declared action table -/

/-- Declared configuration of one action in the schema: an enabled action
(REST exposure, `needEntity` flag, permission tags) or the literal
`false` disabling it. -/
inductive ActionSetting where
  | enabled (rest : Option String) (needEntity : Bool) (permissions : List String)
  | disabled
  deriving DecidableEq

/-- The `actions` object of the schema (src/unnamed/part_000 lines
116-162): the permission-gated CRUD set, with `replace: false`.  (The
variant in src/db.mixin.js declares an empty `actions` object, adding no
gating of its own.)  `permRoot` is the configured `opts.permissions`
string. -/
def schemaActions (permRoot : String) : String → Option ActionSetting :=
  fun name =>
    if name = "create" then some (.enabled none false [permRoot ++ ".create"])
    else if name = "list" then some (.enabled none false [permRoot ++ ".list"])
    else if name = "find" then some (.enabled (some "GET /find") false [permRoot ++ ".find"])
    else if name = "count" then some (.enabled (some "GET /count") false [permRoot ++ ".count"])
    else if name = "get" then some (.enabled none true [permRoot ++ ".get"])
    else if name = "update" then some (.enabled none true [permRoot ++ ".update"])
    else if name = "replace" then some .disabled
    else if name = "remove" then some (.enabled none true [permRoot ++ ".remove"])
    else none

/-- The CRUD action names the mixin exposes. -/
def crudActionNames : List String :=
  ["create", "list", "find", "count", "get", "update", "remove"]

/-- Whether a declared action setting is an enabled action. -/
def isEnabledAction (s : Option ActionSetting) : Bool :=
  match s with
  | some (.enabled _ _ _) => true
  | _ => false

/-! ## Helper lemmas -/

/-- Reading back the property just assigned yields the assigned value. -/
theorem jsGet_jsSet_self (o : JsObj) (k v : String) :
    jsGet (jsSet o k v) k = some v := by
  induction o with
  | nil => simp [jsGet, jsSet, List.find?]
  | cons p rest ih =>
    by_cases h : p.1 = k
    · simp [jsGet, jsSet, List.find?, h]
    · have hb : (p.1 == k) = false := beq_eq_false_iff_ne.mpr h
      simp only [jsSet, hb, if_false]
      simpa [jsGet, List.find?, hb] using ih

/-- Assigning one property leaves every other property unchanged. -/
theorem jsGet_jsSet_other (o : JsObj) (k v k2 : String) (h : k2 ≠ k) :
    jsGet (jsSet o k v) k2 = jsGet o k2 := by
  induction o with
  | nil =>
    have hb : (k == k2) = false := beq_eq_false_iff_ne.mpr (Ne.symm h)
    simp [jsGet, jsSet, List.find?, hb]
  | cons p rest ih =>
    by_cases hp : p.1 = k
    · have hb : (k == k2) = false := beq_eq_false_iff_ne.mpr (Ne.symm h)
      have hb2 : (p.1 == k2) = false := by
        subst hp; exact hb
      simp [jsGet, jsSet, List.find?, hp, hb, hb2]
    · have hbp : (p.1 == k) = false := beq_eq_false_iff_ne.mpr hp
      simp only [jsSet, hbp, if_false]
      by_cases hq : p.1 = k2
      · simp [jsGet, List.find?, hq]
      · have hbq : (p.1 == k2) = false := beq_eq_false_iff_ne.mpr hq
        simpa [jsGet, List.find?, hbq] using ih

/-- A store whose keys are all valid internal ids never resolves the
empty string. -/
theorem lookupById_empty_id_none {α : Type} (store : List (String × α))
    (hstore : ∀ p ∈ store, IsValidHexId p.1) :
    lookupById store "" = none := by
  induction store with
  | nil => rfl
  | cons p rest ih =>
    have hp : IsValidHexId p.1 := hstore p (List.mem_cons_self p rest)
    have hb : (p.1 == "") = false := beq_eq_false_iff_ne.mpr hp.1
    have ih2 := ih (fun q hq => hstore q (List.mem_cons_of_mem p hq))
    simpa [lookupById, List.find?, hb] using ih2

/-! ## Claims -/

/-- C1: for every codec satisfying the hashids round-trip contract under
the fixed process-wide salt and every valid internal id `x` (native
`ObjectID` or string form), `decodeID (encodeID x)` is the string form of
`x`: the codec normalises the input and then encodes and decodes
reversibly. -/
theorem c1_encode_decode_roundtrip (hashids : HexCodec)
    (hrt : RoundTripOn hashids) (x : InternalId) (hx : ValidInternalId x) :
    decodeID hashids (encodeID hashids x) = x.stringForm := by
  cases x with
  | objectId h =>
    obtain ⟨h24, hhex⟩ := hx
    refine hrt h ⟨?_, hhex⟩
    intro he
    exact absurd (he ▸ h24) (by decide)
  | str s => exact hrt s hx

/-- A codec instance discharging the round-trip contract for the C1
witness. -/
def idCodec : HexCodec := ⟨fun s => s, fun s => s⟩

/-- C1 witness: the round-trip evaluated at the concrete string id
`deadbeef` and a concrete codec satisfying the contract. -/
theorem c1_witness :
    decodeID idCodec (encodeID idCodec (.str "deadbeef")) = "deadbeef" :=
  c1_encode_decode_roundtrip idCodec (fun _ _ => rfl) (.str "deadbeef")
    (by decide)

/-- C2: with no execution context (adapter bootstrap), `validateHas`
returns the original query and performs no delegated lookup call. -/
theorem c2_no_context_passthrough (caller key : String) (query : JsObj)
    (params : JsObj) :
    validateHas caller key query none params = ⟨.ok (.query query), []⟩ :=
  rfl

/-- C3: with a context, a truthy `params[key]` and a delegated lookup
that resolves nothing, `validateHas` throws a `MoleculerClientError` with
code 403 and type `ERR_NO_PERMISSION` whose data carries the denied id
value. -/
theorem c3_denied_lookup_throws_403 (caller key : String) (query : JsObj)
    (c : Ctx) (params : JsObj) (v : String)
    (hv : jsGetTruthy params key = some v)
    (hcall : c.call caller v = none) :
    validateHas caller key query (some c) params =
      ⟨.thrown ⟨"You have no right for the " ++ key ++ " \x27" ++ v ++ "\x27",
          403, "ERR_NO_PERMISSION", .domain v⟩, [(caller, v)]⟩ := by
  simp only [validateHas, hv, hcall, Option.isSome_none, Bool.false_eq_true,
    if_false]

/-- A context whose delegated lookups all resolve nothing, used by the C3
witness. -/
def ctxDenyAll : Ctx := ⟨fun _ _ => none, fun _ => none⟩

/-- C3 witness: the 403 outcome evaluated at a concrete denied id. -/
theorem c3_witness :
    validateHas "v1.domains.resolve" "domain" [] (some ctxDenyAll)
        [("domain", "abc123")] =
      ⟨.thrown ⟨"You have no right for the domain \x27abc123\x27", 403,
          "ERR_NO_PERMISSION", .domain "abc123"⟩,
        [("v1.domains.resolve", "abc123")]⟩ :=
  c3_denied_lookup_throws_403 "v1.domains.resolve" "domain" [] ctxDenyAll
    [("domain", "abc123")] "abc123" rfl rfl

/-- C9: `decodeID` of a malformed external id (one hashids decodes to
nothing) yields the empty string, and that value fails every existence
lookup over a store of valid internal ids; the function is total,
mirroring that `decodeHex` never throws. -/
theorem c9_malformed_decode_not_found (hashids : HexCodec) (m : String)
    (hm : DecodesToNothing hashids m) :
    decodeID hashids m = "" ∧
      ∀ (store : List (String × Nat)), (∀ p ∈ store, IsValidHexId p.1) →
        lookupById store (decodeID hashids m) = none := by
  refine ⟨hm, ?_⟩
  intro store hstore
  rw [show decodeID hashids m = "" from hm]
  exact lookupById_empty_id_none store hstore

/-- A codec instance for the C9 witness: valid lowercase hex strings pass
through, anything else decodes to nothing. -/
def strictHexCodec : HexCodec :=
  ⟨fun s => s, fun s => if s ≠ "" ∧ s.data.all isLowerHexChar then s else ""⟩

/-- C9 witness: the sentinel behaviour evaluated at a concrete malformed
id and a concrete nonempty store. -/
theorem c9_witness :
    decodeID strictHexCodec "not-hex!" = "" ∧
      lookupById [("0a3f", 1)] (decodeID strictHexCodec "not-hex!") = none :=
  ⟨(c9_malformed_decode_not_found strictHexCodec "not-hex!" (by decide)).1,
    (c9_malformed_decode_not_found strictHexCodec "not-hex!" (by decide)).2
      [("0a3f", 1)] (by decide)⟩

/-- C10: with a context, a truthy `params[key]` and a lookup that
resolves, `validateHas` returns the given query with `key` set to the
param value (the source mutates the query object in place and returns
it), and every other property of the query is unchanged. -/
theorem c10_success_sets_key_only (caller key : String) (query : JsObj)
    (c : Ctx) (params : JsObj) (v : String)
    (hv : jsGetTruthy params key = some v)
    (hcall : (c.call caller v).isSome = true) :
    validateHas caller key query (some c) params =
        ⟨.ok (.query (jsSet query key v)), [(caller, v)]⟩ ∧
      jsGet (jsSet query key v) key = some v ∧
      ∀ k, k ≠ key → jsGet (jsSet query key v) k = jsGet query k := by
  refine ⟨?_, jsGet_jsSet_self query key v,
    fun k hk => jsGet_jsSet_other query key v k hk⟩
  simp only [validateHas, hv, hcall, if_true]

/-- A context whose delegated lookups all resolve, used by the C10
witness. -/
def ctxAllowAll : Ctx := ⟨fun _ _ => some (), fun _ => none⟩

/-- C10 witness: the success outcome evaluated at a concrete query,
showing the key written and an unrelated property untouched. -/
theorem c10_witness :
    validateHas "v1.domains.resolve" "domain" [("owner", "u1")]
        (some ctxAllowAll) [("domain", "abc123")] =
        ⟨.ok (.query [("owner", "u1"), ("domain", "abc123")]),
          [("v1.domains.resolve", "abc123")]⟩ ∧
      jsGet [("owner", "u1"), ("domain", "abc123")] "owner" =
        jsGet [("owner", "u1")] "owner" :=
  ⟨(c10_success_sets_key_only "v1.domains.resolve" "domain" [("owner", "u1")]
      ctxAllowAll [("domain", "abc123")] "abc123" rfl rfl).1,
    (c10_success_sets_key_only "v1.domains.resolve" "domain" [("owner", "u1")]
      ctxAllowAll [("domain", "abc123")] "abc123" rfl rfl).2.2 "owner"
      (by decide)⟩

/-- A context marking the `domain` key optional in the action schema,
used against C4 as stated. -/
def ctxOptionalDomain : Ctx :=
  ⟨fun _ _ => none, fun k => if k = "domain" then some ⟨true⟩ else none⟩

/-- C4 counterexample: with a context, `params[key]` absent and the key
marked optional, `validateHas` does not return the query unchanged —
control falls off the end of the function, so the call returns
`undefined`, not the query object. -/
theorem c4_counterexample :
    (validateHas "v1.domains.resolve" "domain" [("owner", "u1")]
        (some ctxOptionalDomain) []).result ≠
      .ok (.query [("owner", "u1")]) := by
  decide

/-- C4 amended: with a context and `params[key]` falsy, `validateHas`
throws a 422 `VALIDATION_ERROR` naming the field when the action schema
marks the key non-optional; otherwise (key optional, or absent from the
schema) it performs no call and returns `undefined`, leaving the query
object untouched. -/
theorem c4_required_else_undefined (caller key : String) (query : JsObj)
    (c : Ctx) (params : JsObj) (hv : jsGetTruthy params key = none) :
    (∀ spec, c.actionParams key = some spec → spec.optional = false →
        validateHas caller key query (some c) params =
          ⟨.thrown ⟨key ++ " is required", 422, "VALIDATION_ERROR",
              .fields [⟨"required", key⟩]⟩, []⟩) ∧
      (∀ spec, c.actionParams key = some spec → spec.optional = true →
        validateHas caller key query (some c) params = ⟨.ok .undef, []⟩) ∧
      (c.actionParams key = none →
        validateHas caller key query (some c) params = ⟨.ok .undef, []⟩) := by
  refine ⟨?_, ?_, ?_⟩
  · intro spec hs hopt
    simp only [validateHas, hv, hs, hopt, Bool.not_false, if_true]
  · intro spec hs hopt
    simp only [validateHas, hv, hs, hopt, Bool.not_true, Bool.false_eq_true,
      if_false]
  · intro hs
    simp only [validateHas, hv, hs]

/-- A context marking the `domain` key required in the action schema,
used by the C4 witness. -/
def ctxRequiredDomain : Ctx :=
  ⟨fun _ _ => none, fun k => if k = "domain" then some ⟨false⟩ else none⟩

/-- C4 witness: the 422 outcome for a required missing key and the
`undefined` outcome for an optional missing key, at concrete inputs. -/
theorem c4_witness :
    validateHas "v1.domains.resolve" "domain" [] (some ctxRequiredDomain)
        [] =
        ⟨.thrown ⟨"domain is required", 422, "VALIDATION_ERROR",
            .fields [⟨"required", "domain"⟩]⟩, []⟩ ∧
      validateHas "v1.domains.resolve" "domain" [] (some ctxOptionalDomain)
        [] = ⟨.ok .undef, []⟩ :=
  ⟨(c4_required_else_undefined "v1.domains.resolve" "domain" [] ctxRequiredDomain
      [] rfl).1 ⟨false⟩ (by decide) rfl,
    (c4_required_else_undefined "v1.domains.resolve" "domain" [] ctxOptionalDomain
      [] rfl).2.1 ⟨true⟩ (by decide) rfl⟩

/-- C5: outside the unit-testing / generation override, the factory
selects the NeDB file store (threshold `0.5`, data file
`<collection>.db` rooted at the resolved directory, directory created via
`mkdirp`) exactly when a local directory is configured through
`opts.nedb` or `NEDB_FOLDER`, and otherwise the MongoDB adapter with the
connection string defaulting to `mongodb://localhost/data` and the
collection name as the target namespace. -/
theorem c5_adapter_selection (resolve : String → String)
    (env : FactoryEnv) (opts : FactoryOpts)
    (hmode : ((env.nodeEnvTest && !env.testInt) || env.onlyGenerate) = false) :
    (∀ raw, nedbDir env opts = some raw →
        selectAdapter resolve env opts =
          ⟨.nedbFile false (1/2)
              (resolve raw ++ "/" ++ opts.collection ++ ".db"),
            [resolve raw]⟩) ∧
      (nedbDir env opts = none →
        selectAdapter resolve env opts =
          ⟨.mongoDB ((truthyStr env.mongoUri).getD "mongodb://localhost/data")
              opts.collection, []⟩) := by
  constructor
  · intro raw hdir
    simp only [selectAdapter, hmode, Bool.false_eq_true, if_false, hdir]
  · intro hdir
    simp only [selectAdapter, hmode, Bool.false_eq_true, if_false, hdir]

/-- A production environment (no test modes, no environment overrides),
used by witnesses. -/
def prodEnv : FactoryEnv :=
  { nodeEnvTest := false, testInt := false, testE2E := false,
    onlyGenerate := false, nedbFolder := none, mongoUri := none }

/-- C5 witness: the NeDB branch evaluated at the concrete options
`collection = accounts`, `nedb = ./data` in a production environment. -/
theorem c5_witness :
    selectAdapter (fun s => s) prodEnv
        { collection := "accounts", permissions := "v1.accounts",
          nedb := some "./data" } =
      ⟨.nedbFile false (1/2) "./data/accounts.db", ["./data"]⟩ :=
  (c5_adapter_selection (fun s => s) prodEnv
      { collection := "accounts", permissions := "v1.accounts",
        nedb := some "./data" } rfl).1 "./data" rfl

/-- C6: the `created` hook raises the fatal startup error exactly when
`HASHID_SALT` is not configured (unset or empty); with a salt set it
raises nothing. -/
theorem c6_created_salt_check (hashidSalt : Option String) :
    (truthyStr hashidSalt = none → (createdHook hashidSalt).isSome = true) ∧
      (∀ s, truthyStr hashidSalt = some s → createdHook hashidSalt = none) := by
  constructor
  · intro h
    simp only [createdHook, h, if_true, Option.isSome_some]
  · intro s h
    simp only [createdHook, h, Option.some_ne_none, if_false]

/-- C6 witness: the fatal outcome with the salt unset and the silent
outcome with a concrete salt set. -/
theorem c6_witness :
    (createdHook none).isSome = true ∧ createdHook (some "s3cr3t") = none :=
  ⟨(c6_created_salt_check none).1 rfl,
    (c6_created_salt_check (some "s3cr3t")).2 "s3cr3t" rfl⟩

/-- C7: the schema enables exactly the seven CRUD actions — create, list,
find, count, get, update, remove — each gated by the permission tag
`<permissions root>.<action name>`, and declares `replace` disabled. -/
theorem c7_action_surface (p : String) :
    schemaActions p "create" = some (.enabled none false [p ++ ".create"]) ∧
    schemaActions p "list" = some (.enabled none false [p ++ ".list"]) ∧
    schemaActions p "find" =
      some (.enabled (some "GET /find") false [p ++ ".find"]) ∧
    schemaActions p "count" =
      some (.enabled (some "GET /count") false [p ++ ".count"]) ∧
    schemaActions p "get" = some (.enabled none true [p ++ ".get"]) ∧
    schemaActions p "update" = some (.enabled none true [p ++ ".update"]) ∧
    schemaActions p "remove" = some (.enabled none true [p ++ ".remove"]) ∧
    schemaActions p "replace" = some .disabled ∧
    (∀ name, isEnabledAction (schemaActions p name) = true →
      name ∈ crudActionNames) := by
  refine ⟨rfl, rfl, rfl, rfl, rfl, rfl, rfl, rfl, ?_⟩
  intro name h
  unfold schemaActions at h
  split_ifs at h with h1 h2 h3 h4 h5 h6 h7 h8
  · subst h1; decide
  · subst h2; decide
  · subst h3; decide
  · subst h4; decide
  · subst h5; decide
  · subst h6; decide
  · exact absurd h (by decide)
  · subst h8; decide
  · exact absurd h (by decide)

/-- C7 witness: the action table evaluated at a concrete permission root,
with the exactness clause applied at a concrete enabled action. -/
theorem c7_witness :
    schemaActions "v1.domains" "create" =
        some (.enabled none false ["v1.domains.create"]) ∧
      schemaActions "v1.domains" "replace" = some .disabled ∧
      "get" ∈ crudActionNames :=
  ⟨(c7_action_surface "v1.domains").1,
    (c7_action_surface "v1.domains").2.2.2.2.2.2.2.1,
    (c7_action_surface "v1.domains").2.2.2.2.2.2.2.2 "get" (by decide)⟩

/-- C8: the `started` hook invokes `seedDB` only when the function is
defined and the entity count it observes is zero; outside the test modes
that clear the collection first, starting over a non-empty collection
never invokes the seed function. -/
theorem c8_seed_at_most_once (env : FactoryEnv) (entitiesAtStart : Nat)
    (hasSeedDB : Bool) :
    ((startedHook env entitiesAtStart hasSeedDB).seeded = true →
        hasSeedDB = true ∧
          (startedHook env entitiesAtStart hasSeedDB).observedCount = 0) ∧
      ((env.testE2E || env.testInt) = false → entitiesAtStart ≠ 0 →
        (startedHook env entitiesAtStart hasSeedDB).seeded = false) := by
  constructor
  · intro h
    simp only [startedHook, Bool.and_eq_true, beq_iff_eq] at h
    exact ⟨h.2, by simp only [startedHook]; exact h.1⟩
  · intro hmode hne
    have hz : (entitiesAtStart == 0) = false := beq_eq_false_iff_ne.mpr hne
    simp only [startedHook, hmode, Bool.false_eq_true, if_false, hz,
      Bool.false_and]

/-- C8 witness: a production start over a collection of five entities
with a seed function defined does not seed. -/
theorem c8_witness : (startedHook prodEnv 5 true).seeded = false :=
  (c8_seed_at_most_once prodEnv 5 true).2 rfl (by decide)

end DbMixin
